import Mathlib

/-!
Verification of the reel-generation streaming pipeline: a server route
(`src/app/api/generate/route.ts`) that validates a creative brief and streams a
fixed sequence of newline-delimited JSON events, and a client page
(`src/unnamed/part_000`) that incrementally reads the stream, splits it into
lines across chunk boundaries, parses each line and folds it into UI state.

Conventions of the shallow embedding:
* JavaScript numbers are modelled as exact rationals (`ℚ`) for the fractional
  progress/beat-weight constants and as integers (`ℤ`) where the source only
  ever holds integral values (durations, cursors, etas).
* Strings are Lean `String`s; the byte-level `TextDecoder` is elided and the
  stream is modelled as character lists (`List Char`) where chunking matters.
* External runtime builtins (`Number.parseInt`, `JSON.parse`) are modelled
  explicitly: `parseIntJS` reimplements the radix-10 semantics of
  `Number.parseInt`, and the outcome of `JSON.parse` on a line is abstracted
  into the `RawLine` type (a line either is blank, fails to parse, or yields a
  JSON object classified by its `type` discriminant).
-/

namespace ReelForge

/-- A timeline segment, as built by `buildTimeline` in the route and consumed
by the page (`TimelineSegment` there has the identical shape). -/
structure Segment where
  id : String
  label : String
  start : ℤ
  duration : ℤ
  description : String
  deriving Repr, DecidableEq

/-- The `deliverables` record of the terminal `result` event; the consumer's
`ResultEvent` type has the identical shape. -/
structure Deliverables where
  topic : String
  platform : String
  duration : ℤ
  callToAction : Option String
  script : String
  overlays : String
  segments : List Segment
  voicePlan : String
  deriving Repr, DecidableEq

/-- The validated request payload: `z.infer<typeof ReelRequestSchema>`.
All defaults have already been applied by the schema. -/
structure Payload where
  topic : String
  platform : String
  tone : String
  length : String
  voice : String
  callToAction : Option String
  audience : String
  autopilot : Bool
  brandColor : Option String
  deriving Repr, DecidableEq

/-- The raw JSON request body before schema validation: each field may be
absent.  (Fields of entirely wrong runtime type are out of scope; absence is
what the validation claims exercise.) -/
structure RawBrief where
  topic : Option String
  platform : Option String
  tone : Option String
  length : Option String
  voice : Option String
  callToAction : Option String
  audience : Option String
  autopilot : Option Bool
  brandColor : Option String
  deriving Repr, DecidableEq

/-- `ReelRequestSchema.parse`: `topic` is required with minimum length 3;
every other field takes its documented default when absent
(route.ts lines 4-14).  Returns `none` when validation throws. -/
def ReelRequestSchema.parse (r : RawBrief) : Option Payload :=
  match r.topic with
  | none => none
  | some t =>
    if t.length < 3 then none
    else
      some
        { topic := t
          platform := r.platform.getD "instagram"
          tone := r.tone.getD "cinematic"
          length := r.length.getD "30"
          voice := r.voice.getD "warm"
          callToAction := r.callToAction
          audience := r.audience.getD "general"
          autopilot := r.autopilot.getD true
          brandColor := r.brandColor }

/-- Leading decimal digits of a character list, or `none` if there are none.
Helper for `parseIntJS`. -/
def leadingDigits (cs : List Char) : Option ℕ :=
  let ds := cs.takeWhile Char.isDigit
  if ds = [] then none
  else some (ds.foldl (fun a c => a * 10 + (c.toNat - 48)) 0)

/-- Model of the external runtime builtin `Number.parseInt(s, 10)`: skip
leading whitespace, accept an optional sign, read leading decimal digits
(ignoring any trailing garbage), and return `none` (NaN) when no digits are
found. -/
def parseIntJS (s : String) : Option ℤ :=
  match s.data.dropWhile Char.isWhitespace with
  | '-' :: rest => (leadingDigits rest).map (fun n => -(n : ℤ))
  | '+' :: rest => (leadingDigits rest).map (fun n => (n : ℤ))
  | rest => (leadingDigits rest).map (fun n => (n : ℤ))

/-- The effective target duration derived from the payload's `length` field
(route.ts lines 33-37): `parseInt` the string, default to 45 on NaN, otherwise
clamp into [15, 120] via `Math.min(Math.max(numeric, 15), 120)`. -/
def targetDuration (length : String) : ℤ :=
  match parseIntJS length with
  | none => 45
  | some numeric => min (max numeric 15) 120

/-- The five fixed beat-weight fractions of `buildTimeline`. -/
def beatPercents : List ℚ := [0.18, 0.24, 0.2, 0.2, 0.18]

/-- `getLabel` (route.ts lines 193-195). -/
def getLabel (index : ℕ) : String :=
  (["Hook", "Pain Point", "Transformation", "Proof", "CTA"][index]?).getD
    ("Beat " ++ toString (index + 1))

/-- `getDescription` (route.ts lines 197-206). -/
def getDescription (index : ℕ) (topic tone platform : String) : String :=
  ([ "Open with an arresting motion graphic that telegraphs the promise around "
       ++ topic ++ ".",
     "Amplify the audience problem with kinetic captions tailored for "
       ++ platform ++ ".",
     "Reveal the transformation anchored by " ++ topic ++ " using "
       ++ tone ++ " pacing.",
     "Show tactile proof clips with split-screen receipts and animated UI.",
     "Deliver the CTA with punchy supers and looping background energy."
   ][index]?).getD "Drive momentum into the next beat."

/-- The loop body of `buildTimeline` (route.ts lines 173-190): the source maps
over `beatPercents` with a mutable `cursor`; here the same computation is the
recursion over the remaining percents, threading `cursor` and the running
`index` (so `rest = []` is exactly the source's `isLast`). -/
def buildTimelineGo (topic : String) (duration : ℤ) (tone platform : String)
    (cursor : ℤ) (index : ℕ) : List ℚ → List Segment
  | [] => []
  | pct :: rest =>
    let d0 : ℤ :=
      if rest = [] then max (duration - cursor) 3
      else max 3 ⌊(duration : ℚ) * pct⌋
    let d : ℤ :=
      if rest ≠ [] ∧ duration ≤ cursor + d0 then max 3 (duration - cursor - 3)
      else d0
    { id := "segment-" ++ toString (index + 1)
      label := getLabel index
      start := cursor
      duration := d
      description := getDescription index topic tone platform } ::
      buildTimelineGo topic duration tone platform (cursor + d) (index + 1) rest

/-- `buildTimeline` (route.ts lines 169-191). -/
def buildTimeline (topic : String) (duration : ℤ) (tone platform : String) :
    List Segment :=
  buildTimelineGo topic duration tone platform 0 0 beatPercents

/-- `buildScript` (route.ts lines 208-217). -/
def buildScript (topic tone audience : String) (callToAction : Option String) :
    String :=
  let cta := callToAction.getD ("Tap to explore " ++ topic ++ " today.")
  String.intercalate "\n\n"
    [ "HOOK: Imagine " ++ audience ++ " witnessing " ++ topic
        ++ " unfold in under 30 seconds.",
      "PAIN: You're losing attention within the first 2 seconds — that ends now.",
      "TRANSFORMATION: We stack motion, color, and story into a " ++ tone
        ++ " reel that auto-adapts in real time.",
      "PROOF: Live data visuals, testimonial flashes, and hero product macros keep retention high.",
      "CTA: " ++ cta ]

/-- `buildOverlayPlan` (route.ts lines 219-226). -/
def buildOverlayPlan (topic platform : String) (brandColor : Option String) :
    String :=
  String.intercalate "\n"
    [ "• Gradient wash using " ++ brandColor.getD "#7f5af0" ++ " to match "
        ++ platform ++ " chroma.",
      "• Dynamic caption blocks driven by speech-to-text latency under 80ms.",
      "• Sidecar frame featuring live metrics relevant to " ++ topic ++ ".",
      "• End-frame sticker with adaptive sizing for vertical safe zones." ]

/-- `buildVoicePlan` (route.ts lines 228-235). -/
def buildVoicePlan (voice tone audience : String) : String :=
  String.intercalate "\n"
    [ "• Register: " ++ voice ++ " with " ++ tone ++ " pacing.",
      "• Inflections target " ++ audience
        ++ " attention spikes on seconds 0-3, 12, and 22.",
      "• Breath map inserted to sync with beat-based cut rhythm.",
      "• Dual-track render for automatic ducking under SFX beds." ]

/-- A streamed event: the discriminated union written on the wire, one JSON
object per line, discriminated by its `type` field. -/
inductive Event where
  | status (id stage agent detail : String) (progress : ℚ) (eta : ℤ)
  | asset (id artifact title content : String) (progress : ℚ) (agent : String)
  | timeline (id : String) (segments : List Segment) (progress : ℚ) (agent : String)
  | result (id agent : String) (progress : ℚ) (deliverables : Deliverables)
  deriving Repr, DecidableEq

/-- The `type` discriminant of an event. -/
inductive EventType where
  | status | asset | timeline | result
  deriving Repr, DecidableEq

/-- The value of an event's `type` field. -/
def Event.type : Event → EventType
  | .status .. => .status
  | .asset .. => .asset
  | .timeline .. => .timeline
  | .result .. => .result

/-- An event's `progress` field. -/
def Event.progress : Event → ℚ
  | .status _ _ _ _ p _ => p
  | .asset _ _ _ _ p _ => p
  | .timeline _ _ p _ => p
  | .result _ _ p _ => p

/-- The fixed ordered event sequence the producer derives from a validated
payload (route.ts lines 33-142). -/
def eventSequence (p : Payload) : List Event :=
  let duration := targetDuration p.length
  let segments := buildTimeline p.topic duration p.tone p.platform
  let script := buildScript p.topic p.tone p.audience p.callToAction
  let overlays := buildOverlayPlan p.topic p.platform p.brandColor
  let voicePlan := buildVoicePlan p.voice p.tone p.audience
  [ .status "briefing" "Creative Brief Intake" "Director AI"
      ("Synced on goal-driven narrative for " ++ p.platform ++ " reels.")
      0.08 90,
    .status "ideation" "Narrative Engine" "StoryCrafter"
      ("Drafting multi-beat storyline themed around “" ++ p.topic ++ "”.")
      0.24 75,
    .asset "script" "script" "AI Script Draft v1" script 0.42 "StoryCrafter",
    .status "shotlist" "Visual Sequencer" "VisionGrid"
      "Mapping hero shots, transitions, and overlays for pacing." 0.58 60,
    .timeline "timeline" segments 0.7 "VisionGrid",
    .status "voice" "Voice Design" "EchoSynth"
      ("Modeling " ++ p.voice ++ " vocal profile with " ++ p.tone ++ " energy.")
      0.82 45,
    .asset "voice-plan" "voicePlan" "Voiceover Production Map" voicePlan 0.9
      "EchoSynth",
    .asset "overlay-plan" "overlays" "On-screen Overlay Strategy" overlays 0.94
      "VisionGrid",
    .status "render" "Real-Time Render Orchestration" "PipelineOps"
      "Coordinating camera moves, audio mix, and color matrix." 0.98 20,
    .result "delivery" "Director AI" 1
      { topic := p.topic
        platform := p.platform
        duration := duration
        callToAction := p.callToAction
        script := script
        overlays := overlays
        segments := segments
        voicePlan := voicePlan } ]

/-- A response from the `POST` handler: either an immediate error response or
a stream of newline-delimited events. -/
inductive PostResponse where
  | errorResponse (status : ℕ) (error : String)
  | stream (events : List Event)
  deriving Repr, DecidableEq

/-- The `POST` handler (route.ts lines 18-167): validate the body against
`ReelRequestSchema`; on failure answer 400 with `error:"Invalid request
payload"` and start no stream; on success stream `eventSequence`. -/
def POST (r : RawBrief) : PostResponse :=
  match ReelRequestSchema.parse r with
  | none => .errorResponse 400 "Invalid request payload"
  | some payload => .stream (eventSequence payload)

/-! ## Stream Consumer (src/unnamed/part_000, `handleGenerate`) -/

/-- A consumer-side status event (`StatusEvent`, part_000 lines 15-22):
`eta` is optional on the wire. -/
structure StatusEvent where
  id : String
  stage : String
  detail : String
  agent : String
  progress : ℚ
  eta : Option ℤ
  deriving Repr, DecidableEq

/-- A consumer-side asset event (`AssetEvent`, part_000 lines 24-31).
`artifact` names the vault slot; on the wire it is a plain string. -/
structure AssetEvent where
  id : String
  artifact : String
  title : String
  content : String
  agent : String
  progress : ℚ
  deriving Repr, DecidableEq

/-- The result of `JSON.parse` on one complete line, classified the way the
consumer's dispatch inspects it: one case per known `type` discriminant, plus
`unknown` for a JSON object whose `type` is none of the four (carrying its
optional `progress` field, which the `payload.progress ?? prev` update still
reads). -/
inductive JsonEvent where
  | statusJ (e : StatusEvent)
  | assetJ (e : AssetEvent)
  | timelineJ (id : String) (segments : List Segment) (progress : ℚ) (agent : String)
  | resultJ (id : String) (agent : String) (progress : ℚ) (deliverables : Deliverables)
  | unknown (progress : Option ℚ)
  deriving Repr, DecidableEq

/-- One complete line handed to the loop body, abstracted by the outcome of
the external `JSON.parse` builtin: blank (skipped by `if (!line.trim())
continue`), malformed (`JSON.parse` throws), or a parsed JSON object. -/
inductive RawLine where
  | blank
  | malformed
  | event (j : JsonEvent)
  deriving Repr, DecidableEq

/-- The consumer's UI state: the React state hooks of `HomePage`
(part_000 lines 82-88).  `assetVault` is the `Record<string, AssetEvent>`
object, modelled as a partial map. -/
structure UIState where
  statusFeed : List StatusEvent
  assetVault : String → Option AssetEvent
  segments : List Segment
  result : Option Deliverables
  isGenerating : Bool
  progress : ℚ
  error : Option String

/-- The state reset performed at the top of `handleGenerate`
(part_000 lines 109-115): `isGenerating := true`, everything else cleared. -/
def initialUIState : UIState :=
  { statusFeed := []
    assetVault := fun _ => none
    segments := []
    result := none
    isGenerating := true
    progress := 0
    error := none }

/-- The `{...prev, [payload.artifact]: payload}` upsert of the asset vault
(part_000 line 148). -/
def upsertAsset (vault : String → Option AssetEvent) (e : AssetEvent) :
    String → Option AssetEvent :=
  fun k => if k = e.artifact then some e else vault k

/-- The `progress` field of a parsed JSON object, as read by
`payload.progress ?? prev`: present on every known event shape, possibly
absent on an unknown one. -/
def JsonEvent.progressField : JsonEvent → Option ℚ
  | .statusJ e => some e.progress
  | .assetJ e => some e.progress
  | .timelineJ _ _ p _ => some p
  | .resultJ _ _ p _ => some p
  | .unknown p => p

/-- Folding one successfully parsed event into UI state (part_000 lines
143-154): update `progress` to `max(prev, payload.progress ?? prev)`, then
dispatch on `type` — `status` appends to the feed, `asset` upserts the vault,
`timeline` replaces the segments, `result` sets the deliverables and forces
`progress` to 1; any other `type` matches no branch and changes nothing
further. -/
def foldEvent (st : UIState) (j : JsonEvent) : UIState :=
  let stP := { st with progress := max st.progress (j.progressField.getD st.progress) }
  match j with
  | .statusJ e => { stP with statusFeed := stP.statusFeed ++ [e] }
  | .assetJ e => { stP with assetVault := upsertAsset stP.assetVault e }
  | .timelineJ _ segs _ _ => { stP with segments := segs }
  | .resultJ _ _ _ d => { stP with result := some d, progress := 1 }
  | .unknown _ => stP

/-- The message carried by the exception the external `JSON.parse` builtin
throws on malformed input (its exact text is runtime-defined; only its
presence matters to the consumer, which displays `err.message`). -/
def jsonParseErrorMessage : String := "Unexpected token in JSON"

/-- The per-line loop of `handleGenerate` (part_000 lines 140-155) over the
complete lines of the whole stream: skip blank lines, fold parsed events, and
on a malformed line the `JSON.parse` exception aborts the loop — the state
mutations already committed remain, and `none`/`some msg` records whether the
loop ended cleanly or by exception. -/
def processLines (st : UIState) : List RawLine → UIState × Option String
  | [] => (st, none)
  | .blank :: rest => processLines st rest
  | .malformed :: _ => (st, some jsonParseErrorMessage)
  | .event j :: rest => processLines (foldEvent st j) rest

/-- The `catch`/`finally` epilogue of `handleGenerate` (part_000 lines
157-161): an exception sets the visible error, and `finally` always clears
`isGenerating`. -/
def finishStream : UIState × Option String → UIState
  | (st, none) => { st with isGenerating := false }
  | (st, some msg) => { st with error := some msg, isGenerating := false }

/-- One submission of `handleGenerate`, from the state reset through
end-of-stream, at the granularity of complete lines. -/
def runConsumer (lines : List RawLine) : UIState :=
  finishStream (processLines initialUIState lines)

/-! ### The chunk-boundary line splitter (part_000 lines 130-138) -/

/-- `buffer.split("\n")` on character lists: the (never empty) list of pieces
between newline occurrences, empty pieces included, exactly as the JavaScript
`String.prototype.split` builtin produces them. -/
def splitNL : List Char → List (List Char)
  | [] => [[]]
  | c :: rest =>
    match splitNL rest with
    | [] => [[]]
    | p :: ps => if c = '\n' then [] :: p :: ps else (c :: p) :: ps

/-- One iteration of the read loop's buffering step (part_000 lines 136-138):
append the decoded chunk to the buffer, split on `\n`, emit every piece except
the last as a complete line, and retain the last piece (`lines.pop() ?? ""`)
as the new buffer. -/
def feedChunk (buffer chunk : List Char) : List (List Char) × List Char :=
  let lines := splitNL (buffer ++ chunk)
  (lines.dropLast, lines.getLast?.getD [])

/-- The `if (!line.trim()) continue` test: a line is blank when it has only
whitespace (JavaScript `trim` then yields the empty string). -/
def isBlankLine (l : List Char) : Bool :=
  l.all Char.isWhitespace

/-- Concatenation of newline-terminated lines, as the producer writes them
(`JSON.stringify(event) + "\n"`, route.ts line 149). -/
def joinLines (ls : List (List Char)) : List Char :=
  ls.flatMap (fun l => l ++ ['\n'])

/-! ## Helper lemmas: the line splitter -/

/-- `splitNL` never returns the empty list (a JavaScript `split` always yields
at least one piece). -/
theorem splitNL_ne_nil (l : List Char) : splitNL l ≠ [] := by
  induction l with
  | nil => simp [splitNL]
  | cons c rest ih =>
    simp only [splitNL]
    cases h : splitNL rest with
    | nil => exact absurd h ih
    | cons p ps =>
      by_cases hc : c = '\n' <;> simp [hc]

/-- Splitting a newline-free list yields the single piece. -/
theorem splitNL_of_not_mem (l : List Char) (h : '\n' ∉ l) : splitNL l = [l] := by
  induction l with
  | nil => rfl
  | cons c rest ih =>
    have hc : c ≠ '\n' := fun hc => h (hc ▸ List.mem_cons_self c rest)
    have hrest : '\n' ∉ rest := fun hm => h (List.mem_cons_of_mem c hm)
    simp only [splitNL, ih hrest]
    simp [hc]

/-- Splitting at the first newline: a newline-free piece followed by `'\n'`
peels off as one complete piece. -/
theorem splitNL_append_newline (l r : List Char) (h : '\n' ∉ l) :
    splitNL (l ++ '\n' :: r) = l :: splitNL r := by
  induction l with
  | nil =>
    simp only [List.nil_append, splitNL]
    cases hr : splitNL r with
    | nil => exact absurd hr (splitNL_ne_nil r)
    | cons p ps => simp
  | cons c rest ih =>
    have hc : c ≠ '\n' := fun hc => h (hc ▸ List.mem_cons_self c rest)
    have hrest : '\n' ∉ rest := fun hm => h (List.mem_cons_of_mem c hm)
    rw [List.cons_append]
    simp only [splitNL]
    rw [ih hrest]
    cases hr : splitNL r with
    | nil => exact absurd hr (splitNL_ne_nil r)
    | cons p ps => simp [hc]

/-- A newline-free feed emits nothing and accumulates in the buffer. -/
theorem feedChunk_no_newline (buffer chunk : List Char)
    (h : '\n' ∉ buffer ++ chunk) :
    feedChunk buffer chunk = ([], buffer ++ chunk) := by
  simp [feedChunk, splitNL_of_not_mem _ h]

/-- Feeding exactly one newline-terminated line emits it and empties the
buffer. -/
theorem feedChunk_complete_line (buffer chunk line : List Char)
    (hnl : '\n' ∉ line) (heq : buffer ++ chunk = line ++ ['\n']) :
    feedChunk buffer chunk = ([line], []) := by
  have : splitNL (buffer ++ chunk) = [line, []] := by
    rw [heq]
    have := splitNL_append_newline line [] hnl
    simpa using this
  simp [feedChunk, this]

/-- Splitting a concatenation of newline-terminated, newline-free lines
yields exactly those lines plus a trailing empty piece. -/
theorem splitNL_joinLines (ls : List (List Char)) (h : ∀ l ∈ ls, '\n' ∉ l) :
    splitNL (joinLines ls) = ls ++ [[]] := by
  induction ls with
  | nil => rfl
  | cons l rest ih =>
    have hl : '\n' ∉ l := h l (List.mem_cons_self l rest)
    have hrest : ∀ x ∈ rest, '\n' ∉ x := fun x hx => h x (List.mem_cons_of_mem l hx)
    have hjoin : joinLines (l :: rest) = l ++ '\n' :: joinLines rest := by
      simp [joinLines]
    rw [hjoin, splitNL_append_newline l _ hl, ih hrest]
    rfl

/-! ## Helper lemmas: the timeline builder -/

/-- Segments laid out contiguously from a cursor: the first starts at the
cursor and each subsequent segment starts where the previous one ends. -/
def contiguousFrom (c : ℤ) : List Segment → Prop
  | [] => True
  | s :: rest => s.start = c ∧ contiguousFrom (c + s.duration) rest

/-- Every segment the builder produces has duration at least 3. -/
theorem buildTimelineGo_duration_ge_three (topic tone platform : String)
    (duration : ℤ) :
    ∀ (pcts : List ℚ) (cursor : ℤ) (index : ℕ),
      ∀ s ∈ buildTimelineGo topic duration tone platform cursor index pcts,
        3 ≤ s.duration := by
  intro pcts
  induction pcts with
  | nil => intro cursor index s hs; simp [buildTimelineGo] at hs
  | cons pct rest ih =>
    intro cursor index s hs
    simp only [buildTimelineGo, List.mem_cons] at hs
    rcases hs with hs | hs
    · subst hs
      dsimp only
      by_cases hlast : rest = ([] : List ℚ)
      · have : ¬(rest ≠ ([] : List ℚ) ∧
            duration ≤ cursor + (if rest = ([] : List ℚ) then
              max (duration - cursor) 3 else max 3 ⌊(duration : ℚ) * pct⌋)) := by
          intro hcontra; exact hcontra.1 hlast
        rw [if_neg this, if_pos hlast]
        exact le_max_right _ _
      · by_cases hshrink : rest ≠ ([] : List ℚ) ∧
            duration ≤ cursor + (if rest = ([] : List ℚ) then
              max (duration - cursor) 3 else max 3 ⌊(duration : ℚ) * pct⌋)
        · rw [if_pos hshrink]
          exact le_max_left _ _
        · rw [if_neg hshrink, if_neg hlast]
          exact le_max_left _ _
    · exact ih _ _ s hs

/-- The builder's output is contiguous from its starting cursor. -/
theorem buildTimelineGo_contiguous (topic tone platform : String)
    (duration : ℤ) :
    ∀ (pcts : List ℚ) (cursor : ℤ) (index : ℕ),
      contiguousFrom cursor
        (buildTimelineGo topic duration tone platform cursor index pcts) := by
  intro pcts
  induction pcts with
  | nil => intro cursor index; simp [buildTimelineGo, contiguousFrom]
  | cons pct rest ih =>
    intro cursor index
    simp only [buildTimelineGo]
    exact ⟨rfl, ih _ _⟩

/-- The builder yields one segment per beat weight. -/
theorem buildTimelineGo_length (topic tone platform : String) (duration : ℤ) :
    ∀ (pcts : List ℚ) (cursor : ℤ) (index : ℕ),
      (buildTimelineGo topic duration tone platform cursor index pcts).length =
        pcts.length := by
  intro pcts
  induction pcts with
  | nil => intro cursor index; rfl
  | cons pct rest ih =>
    intro cursor index
    simp only [buildTimelineGo, List.length_cons, ih]

/-- Contiguous segments with positive durations have strictly increasing
starts. -/
theorem contiguousFrom_chain_lt (l : List Segment) :
    ∀ c : ℤ, contiguousFrom c l → (∀ s ∈ l, 3 ≤ s.duration) →
      List.Chain' (fun a b => a.start < b.start) l := by
  induction l with
  | nil => intro c _ _; simp
  | cons s rest ih =>
    intro c hcont hdur
    rcases hcont with ⟨hstart, hrest⟩
    cases rest with
    | nil => simp
    | cons s2 rest2 =>
      rcases hrest with ⟨hstart2, hrest2⟩
      refine List.Chain'.cons ?_ (ih _ ⟨hstart2, hrest2⟩
        (fun x hx => hdur x (List.mem_cons_of_mem s hx)))
      have hd : 3 ≤ s.duration := hdur s (by simp)
      omega

/-- In a contiguous list of segments with durations at least 3, the last
segment's end is at least the second-to-last segment's end. -/
theorem contiguousFrom_last_end_ge (l : List Segment) :
    ∀ c : ℤ, contiguousFrom c l → (∀ s ∈ l, 3 ≤ s.duration) →
      ∀ a b, l.getLast? = some a → l.dropLast.getLast? = some b →
        b.start + b.duration ≤ a.start + a.duration := by
  induction l with
  | nil => intro c _ _ a b ha _; simp at ha
  | cons s rest ih =>
    intro c hcont hdur a b ha hb
    rcases hcont with ⟨hstart, hrest⟩
    cases rest with
    | nil => simp at hb
    | cons s2 rest2 =>
      cases rest2 with
      | nil =>
        rcases hrest with ⟨hstart2, _⟩
        have ha' : s2 = a := by simpa using ha
        have hb' : s = b := by simpa using hb
        have hd2 : 3 ≤ s2.duration := hdur s2 (by simp)
        subst ha'
        subst hb'
        omega
      | cons s3 rest3 =>
        have ha' : (s2 :: s3 :: rest3).getLast? = some a := by
          rw [List.getLast?_cons_cons] at ha
          exact ha
        have hb' : (s2 :: s3 :: rest3).dropLast.getLast? = some b := by
          rw [List.dropLast_cons₂] at hb
          rw [List.dropLast_cons₂] at hb ⊢
          rw [List.getLast?_cons_cons] at hb
          exact hb
        exact ih _ hrest (fun x hx => hdur x (List.mem_cons_of_mem s hx)) a b ha' hb'

/-! ## Helper lemmas: the consumer fold -/

/-- Whether a raw line is a parsed `result` event. -/
def RawLine.isResultLine : RawLine → Bool
  | .event (.resultJ _ _ _ _) => true
  | _ => false

/-- Folding an event never touches the `error` field. -/
theorem foldEvent_error (st : UIState) (j : JsonEvent) :
    (foldEvent st j).error = st.error := by
  cases j <;> rfl

/-- Folding an event that is not a `result` never touches the `result`
field. -/
theorem foldEvent_result (st : UIState) (j : JsonEvent)
    (h : RawLine.isResultLine (.event j) = false) :
    (foldEvent st j).result = st.result := by
  cases j <;> first | rfl | simp [RawLine.isResultLine] at h

/-- The line loop never touches the state's `error` field (errors surface
only through the exception side and the `catch` epilogue). -/
theorem processLines_error (lines : List RawLine) :
    ∀ st : UIState, (processLines st lines).1.error = st.error := by
  induction lines with
  | nil => intro st; rfl
  | cons l rest ih =>
    intro st
    cases l with
    | blank => exact ih st
    | malformed => rfl
    | event j => rw [processLines, ih, foldEvent_error]

/-- A stream with no malformed line is processed to the end without an
exception. -/
theorem processLines_no_malformed (lines : List RawLine)
    (h : RawLine.malformed ∉ lines) :
    ∀ st : UIState, (processLines st lines).2 = none := by
  induction lines with
  | nil => intro st; rfl
  | cons l rest ih =>
    intro st
    have hrest : RawLine.malformed ∉ rest := fun hm => h (List.mem_cons_of_mem l hm)
    cases l with
    | blank => exact ih hrest st
    | malformed => exact absurd (List.mem_cons_self _ _) h
    | event j => exact ih hrest (foldEvent st j)

/-- If no line of the stream is a `result` event, the loop leaves the
`result` field unchanged. -/
theorem processLines_result (lines : List RawLine)
    (h : ∀ l ∈ lines, RawLine.isResultLine l = false) :
    ∀ st : UIState, (processLines st lines).1.result = st.result := by
  induction lines with
  | nil => intro st; rfl
  | cons l rest ih =>
    intro st
    have hrest : ∀ x ∈ rest, RawLine.isResultLine x = false :=
      fun x hx => h x (List.mem_cons_of_mem l hx)
    cases l with
    | blank => exact ih hrest st
    | malformed => rfl
    | event j =>
      rw [processLines, ih hrest, foldEvent_result st j (h _ (List.mem_cons_self _ _))]

/-- An exception after a clean prefix: the loop keeps the state mutations
of the prefix and reports the parse exception; the lines after the
malformed one are never examined. -/
theorem processLines_append_malformed (pre : List RawLine)
    (h : RawLine.malformed ∉ pre) :
    ∀ (post : List RawLine) (st : UIState),
      processLines st (pre ++ RawLine.malformed :: post) =
        ((processLines st pre).1, some jsonParseErrorMessage) := by
  induction pre with
  | nil => intro post st; rfl
  | cons l rest ih =>
    intro post st
    have hrest : RawLine.malformed ∉ rest := fun hm => h (List.mem_cons_of_mem l hm)
    cases l with
    | blank => exact ih hrest post st
    | malformed => exact absurd (List.mem_cons_self _ _) h
    | event j => exact ih hrest post (foldEvent st j)

/-! ## Claim theorems -/

/-- C1: For every Brief that passes validation, the Producer emits exactly 10
events, and their type sequence is exactly status, status, asset, status,
timeline, status, asset, asset, status, result. -/
theorem eventSequence_emits_ten_events_in_fixed_order (r : RawBrief)
    (p : Payload) (h : ReelRequestSchema.parse r = some p) :
    POST r = .stream (eventSequence p) ∧
    (eventSequence p).length = 10 ∧
    (eventSequence p).map Event.type =
      [.status, .status, .asset, .status, .timeline,
       .status, .asset, .asset, .status, .result] := by
  refine ⟨?_, rfl, rfl⟩
  rw [POST, h]

/-- Witness for C1 at a concrete valid brief. -/
theorem eventSequence_emits_ten_events_in_fixed_order_witness :
    POST ⟨some "AI studio launch", none, none, none, none, none, none, none,
      none⟩ = .stream (eventSequence
        { topic := "AI studio launch", platform := "instagram",
          tone := "cinematic", length := "30", voice := "warm",
          callToAction := none, audience := "general", autopilot := true,
          brandColor := none }) ∧
    (eventSequence
        { topic := "AI studio launch", platform := "instagram",
          tone := "cinematic", length := "30", voice := "warm",
          callToAction := none, audience := "general", autopilot := true,
          brandColor := none }).length = 10 ∧
    (eventSequence
        { topic := "AI studio launch", platform := "instagram",
          tone := "cinematic", length := "30", voice := "warm",
          callToAction := none, audience := "general", autopilot := true,
          brandColor := none }).map Event.type =
      [.status, .status, .asset, .status, .timeline,
       .status, .asset, .asset, .status, .result] :=
  eventSequence_emits_ten_events_in_fixed_order _ _ (by decide)

/-- C9: For every valid Brief, the progress values of the producer's 10
emitted events form a non-decreasing sequence and the final (result) event's
progress equals 1. -/
theorem eventSequence_progress_monotone (p : Payload) :
    List.Chain' (· ≤ ·) ((eventSequence p).map Event.progress) ∧
    ((eventSequence p).map Event.progress).getLast? = some 1 := by
  constructor
  · show List.Chain' (· ≤ ·)
      [(0.08 : ℚ), 0.24, 0.42, 0.58, 0.7, 0.82, 0.9, 0.94, 0.98, 1]
    simp only [List.chain'_cons, List.chain'_singleton, and_true]
    norm_num
  · rfl

/-- The clamping function named by the spec: `clamp(x, lo, hi)`. -/
def clamp (x lo hi : ℤ) : ℤ := min (max x lo) hi

/-- C5: For every string value of the Brief's `length` field, the effective
duration equals `clamp(parseInt(length), 15, 120)` when `length` parses to an
integer, and equals 45 when `length` is non-numeric. -/
theorem targetDuration_eq_clamp (s : String) :
    targetDuration s = clamp ((parseIntJS s).getD 45) 15 120 ∧
    (parseIntJS s = none → targetDuration s = 45) := by
  constructor
  · rw [targetDuration, clamp]
    cases parseIntJS s with
    | none => simp
    | some n => simp
  · intro h
    rw [targetDuration, h]

/-- Witness for C5 at a non-numeric and hence defaulting `length`. -/
theorem targetDuration_eq_clamp_witness :
    parseIntJS "cinematic" = none ∧ targetDuration "cinematic" = 45 :=
  ⟨by decide, (targetDuration_eq_clamp "cinematic").2 (by decide)⟩

/-- C7: The consumer's asset-vault fold is last-write-wins per artifact slot:
applying two asset events with the same `artifact` in order leaves the slot
mapped to exactly the second event and every other slot untouched, and a
single asset event leaves every other slot untouched. -/
theorem assetVault_last_write_wins (st : UIState) (e1 e2 e : AssetEvent)
    (k k' : String) (h12 : e1.artifact = e2.artifact)
    (hk : k ≠ e2.artifact) (hk' : k' ≠ e.artifact) :
    (foldEvent (foldEvent st (.assetJ e1)) (.assetJ e2)).assetVault
        e2.artifact = some e2 ∧
    (foldEvent (foldEvent st (.assetJ e1)) (.assetJ e2)).assetVault k =
      st.assetVault k ∧
    (foldEvent st (.assetJ e)).assetVault k' = st.assetVault k' := by
  refine ⟨?_, ?_, ?_⟩
  · show upsertAsset (upsertAsset st.assetVault e1) e2 e2.artifact = some e2
    rw [upsertAsset, if_pos rfl]
  · show upsertAsset (upsertAsset st.assetVault e1) e2 k = st.assetVault k
    rw [upsertAsset, if_neg hk, upsertAsset, if_neg (h12 ▸ hk)]
  · show upsertAsset st.assetVault e k' = st.assetVault k'
    rw [upsertAsset, if_neg hk']

/-- Witness for C7 at concrete asset events in the `script` slot. -/
theorem assetVault_last_write_wins_witness :
    (foldEvent (foldEvent initialUIState
        (.assetJ ⟨"script", "script", "AI Script Draft v1", "one",
          "StoryCrafter", 0.42⟩))
        (.assetJ ⟨"script", "script", "AI Script Draft v2", "two",
          "StoryCrafter", 0.9⟩)).assetVault "script" =
      some ⟨"script", "script", "AI Script Draft v2", "two",
        "StoryCrafter", 0.9⟩ ∧
    (foldEvent (foldEvent initialUIState
        (.assetJ ⟨"script", "script", "AI Script Draft v1", "one",
          "StoryCrafter", 0.42⟩))
        (.assetJ ⟨"script", "script", "AI Script Draft v2", "two",
          "StoryCrafter", 0.9⟩)).assetVault "overlays" =
      initialUIState.assetVault "overlays" ∧
    (foldEvent initialUIState
        (.assetJ ⟨"script", "script", "AI Script Draft v1", "one",
          "StoryCrafter", 0.42⟩)).assetVault "voicePlan" =
      initialUIState.assetVault "voicePlan" :=
  assetVault_last_write_wins initialUIState _ _ _ "overlays" "voicePlan"
    rfl (by decide) (by decide)

/-- C8: For every request whose body omits `topic` or whose `topic` is shorter
than 3 characters, the producer responds with status 400 and error
`"Invalid request payload"`, and no stream of events is started. -/
theorem invalid_brief_yields_400 (r : RawBrief)
    (h : r.topic = none ∨ ∃ t, r.topic = some t ∧ t.length < 3) :
    POST r = .errorResponse 400 "Invalid request payload" ∧
    ∀ evs, POST r ≠ .stream evs := by
  have hparse : ReelRequestSchema.parse r = none := by
    rcases h with h | ⟨t, ht, hlen⟩
    · simp [ReelRequestSchema.parse, h]
    · simp [ReelRequestSchema.parse, ht, hlen]
  rw [POST, hparse]
  exact ⟨rfl, fun evs hc => PostResponse.noConfusion hc⟩

/-- Witness for C8 at a body with no `topic`. -/
theorem invalid_brief_yields_400_witness :
    POST ⟨none, none, none, none, none, none, none, none, none⟩ =
      .errorResponse 400 "Invalid request payload" ∧
    ∀ evs, POST ⟨none, none, none, none, none, none, none, none, none⟩ ≠
      .stream evs :=
  invalid_brief_yields_400 _ (Or.inl rfl)

/-- C2: The consumer's line-splitter reconstructs a single newline-terminated
line split across two arbitrary chunks exactly once (and, being non-blank, it
survives the blank-line filter and is parsed), and a chunk of several
complete newline-terminated lines emits all of them. -/
theorem line_splitter_roundtrip (line chunk1 chunk2 : List Char)
    (ls : List (List Char))
    (hnl : '\n' ∉ line) (hblank : isBlankLine line = false)
    (hsplit : chunk1 ++ chunk2 = line ++ ['\n'])
    (hls : ∀ l ∈ ls, '\n' ∉ l) :
    (feedChunk [] chunk1).1 ++
        (feedChunk (feedChunk [] chunk1).2 chunk2).1 = [line] ∧
    (feedChunk (feedChunk [] chunk1).2 chunk2).2 = [] ∧
    ((feedChunk [] chunk1).1 ++
        (feedChunk (feedChunk [] chunk1).2 chunk2).1).filter
      (fun l => !isBlankLine l) = [line] ∧
    feedChunk [] (joinLines ls) = (ls, []) := by
  have hpart2 : feedChunk [] (joinLines ls) = (ls, []) := by
    have hs : splitNL (joinLines ls) = ls ++ [[]] := splitNL_joinLines ls hls
    simp [feedChunk, hs]
  have hmain : (feedChunk [] chunk1).1 ++
      (feedChunk (feedChunk [] chunk1).2 chunk2).1 = [line] ∧
      (feedChunk (feedChunk [] chunk1).2 chunk2).2 = [] := by
    cases hc2 : chunk2 with
    | nil =>
      rw [hc2, List.append_nil] at hsplit
      have h1 : feedChunk [] chunk1 = ([line], []) :=
        feedChunk_complete_line [] chunk1 line hnl
          (by rw [List.nil_append]; exact hsplit)
      rw [h1]
      simp [feedChunk, splitNL]
    | cons x xs =>
      rw [hc2] at hsplit
      have hlen : chunk1.length ≤ line.length := by
        have hl := congrArg List.length hsplit
        simp only [List.length_append, List.length_cons,
          List.length_nil] at hl
        omega
      have hchunk1 : chunk1 = (line ++ ['\n']).take chunk1.length := by
        rw [← hsplit, List.take_left]
      have hnl1 : '\n' ∉ chunk1 := by
        rw [hchunk1, List.take_append_of_le_length hlen]
        intro hmem
        exact hnl (List.take_subset _ _ hmem)
      have h1 : feedChunk [] chunk1 = ([], chunk1) := by
        have h := feedChunk_no_newline [] chunk1
          (by rw [List.nil_append]; exact hnl1)
        rw [List.nil_append] at h
        exact h
      have h2 : feedChunk chunk1 (x :: xs) = ([line], []) :=
        feedChunk_complete_line chunk1 (x :: xs) line hnl hsplit
      simp [h1, h2]
  refine ⟨hmain.1, hmain.2, ?_, hpart2⟩
  rw [hmain.1]
  simp [hblank]

/-- Witness for C2: the line `ab` split as `a` + `b\n`, and two complete
lines `x` and `y` fed in one chunk. -/
theorem line_splitter_roundtrip_witness :
    ('\n' ∉ ['a', 'b']) ∧ isBlankLine ['a', 'b'] = false ∧
    ['a'] ++ ['b', '\n'] = ['a', 'b'] ++ ['\n'] ∧
    (feedChunk [] ['a']).1 ++
        (feedChunk (feedChunk [] ['a']).2 ['b', '\n']).1 = [['a', 'b']] ∧
    feedChunk [] (joinLines [['x'], ['y']]) = ([['x'], ['y']], []) := by
  refine ⟨by decide, by decide, by decide, ?_, ?_⟩
  · exact (line_splitter_roundtrip ['a', 'b'] ['a'] ['b', '\n']
      [['x'], ['y']] (by decide) (by decide) (by decide) (by decide)).1
  · exact (line_splitter_roundtrip ['a', 'b'] ['a'] ['b', '\n']
      [['x'], ['y']] (by decide) (by decide) (by decide) (by decide)).2.2.2

/-- A sample status event, used to exercise the consumer on a stream that
continues after an unrecognised line. -/
def demoStatus : StatusEvent :=
  { id := "ideation", stage := "Narrative Engine",
    detail := "Drafting multi-beat storyline.", agent := "StoryCrafter",
    progress := 0.24, eta := some 75 }

/-- C3 counterexample: a line that is valid JSON but whose `type` matches no
known discriminant does NOT set the error state and does NOT stop the stream:
the following status event is still folded into the feed. -/
theorem unknown_type_line_does_not_stop_consumer :
    (runConsumer [.event (.unknown none), .event (.statusJ demoStatus)]).error
      = none ∧
    (runConsumer [.event (.unknown none),
      .event (.statusJ demoStatus)]).statusFeed = [demoStatus] := by
  constructor <;> rfl

/-- C3 (amended): a complete line that is not valid JSON makes the consumer
set a user-visible error and stop processing the rest of the stream (no
further lines are examined for this submission); but a line that is valid
JSON whose `type` matches no known discriminant is merely skipped (only the
running-maximum progress update from its `progress` field, when present,
applies) and processing continues. -/
theorem malformed_line_stops_unknown_line_continues
    (pre post rest : List RawLine) (st : UIState) (p : Option ℚ)
    (hpre : RawLine.malformed ∉ pre) :
    processLines st (pre ++ RawLine.malformed :: post) =
      ((processLines st pre).1, some jsonParseErrorMessage) ∧
    (runConsumer (pre ++ RawLine.malformed :: post)).error =
      some jsonParseErrorMessage ∧
    (runConsumer (pre ++ RawLine.malformed :: post)).isGenerating = false ∧
    processLines st (RawLine.event (JsonEvent.unknown p) :: rest) =
      processLines
        { st with progress := max st.progress (p.getD st.progress) } rest := by
  refine ⟨processLines_append_malformed pre hpre post st, ?_, ?_, rfl⟩
  · rw [runConsumer,
      processLines_append_malformed pre hpre post initialUIState]
    rfl
  · rw [runConsumer,
      processLines_append_malformed pre hpre post initialUIState]
    rfl

/-- Witness for C3's amended theorem: one good status line, then a malformed
line, then a line that would have followed. -/
theorem malformed_line_stops_witness :
    RawLine.malformed ∉ [RawLine.event (.statusJ demoStatus)] ∧
    processLines initialUIState
        ([RawLine.event (.statusJ demoStatus)] ++
          RawLine.malformed :: [RawLine.event (.statusJ demoStatus)]) =
      ((processLines initialUIState
          [RawLine.event (.statusJ demoStatus)]).1,
        some jsonParseErrorMessage) := by
  refine ⟨by simp, ?_⟩
  exact (malformed_line_stops_unknown_line_continues
    [RawLine.event (.statusJ demoStatus)]
    [RawLine.event (.statusJ demoStatus)] [] initialUIState none
    (by simp)).1

/-- The three-event stream of the spec's short-stream scenario: two status
events and a timeline, no `result`. -/
def shortStreamLines : List RawLine :=
  [ .event (.statusJ
      { id := "briefing", stage := "Creative Brief Intake",
        detail := "Synced on goal-driven narrative.", agent := "Director AI",
        progress := 0.08, eta := some 90 }),
    .event (.statusJ
      { id := "ideation", stage := "Narrative Engine",
        detail := "Drafting multi-beat storyline.", agent := "StoryCrafter",
        progress := 0.24, eta := some 75 }),
    .event (.timelineJ "timeline" [] 0.7 "VisionGrid") ]

/-- C4: If the stream ends after only some events and no `result` event was
received, the consumer leaves the loading state cleanly (`isGenerating`
false, no error — Completed, not stuck Streaming), `result` remains unset,
and the statusFeed, assetVault and segments applied from the received events
remain unchanged. -/
theorem short_stream_marks_completed (lines : List RawLine)
    (hm : RawLine.malformed ∉ lines)
    (hr : ∀ l ∈ lines, RawLine.isResultLine l = false) :
    (runConsumer lines).isGenerating = false ∧
    (runConsumer lines).error = none ∧
    (runConsumer lines).result = none ∧
    (runConsumer lines).statusFeed =
      (processLines initialUIState lines).1.statusFeed ∧
    (runConsumer lines).segments =
      (processLines initialUIState lines).1.segments ∧
    (runConsumer lines).assetVault =
      (processLines initialUIState lines).1.assetVault := by
  have h2 : (processLines initialUIState lines).2 = none :=
    processLines_no_malformed lines hm initialUIState
  have herr : (processLines initialUIState lines).1.error = none :=
    (processLines_error lines initialUIState).trans rfl
  have hres : (processLines initialUIState lines).1.result = none :=
    (processLines_result lines hr initialUIState).trans rfl
  have hpair : processLines initialUIState lines =
      ((processLines initialUIState lines).1, none) := by
    rw [← h2]
  rw [runConsumer, hpair]
  exact ⟨rfl, herr, hres, rfl, rfl, rfl⟩

/-- Witness for C4 on the concrete three-event stream. -/
theorem short_stream_marks_completed_witness :
    RawLine.malformed ∉ shortStreamLines ∧
    (runConsumer shortStreamLines).isGenerating = false ∧
    (runConsumer shortStreamLines).error = none ∧
    (runConsumer shortStreamLines).result = none ∧
    (runConsumer shortStreamLines).statusFeed =
      (processLines initialUIState shortStreamLines).1.statusFeed := by
  have h := short_stream_marks_completed shortStreamLines
    (by simp [shortStreamLines]) (by simp [shortStreamLines, RawLine.isResultLine])
  exact ⟨by simp [shortStreamLines], h.1, h.2.1, h.2.2.1, h.2.2.2.1⟩

/-- C6: For every clamped target duration D in [15, 120], the timeline
segments have non-decreasing `start`s, every segment except the last has
duration at least 3, and the last segment's end is at least the
second-to-last segment's end (the last end need not equal D). -/
theorem buildTimeline_start_monotone_and_slack (topic tone platform : String)
    (D : ℤ) (h1 : 15 ≤ D) (h2 : D ≤ 120) :
    List.Chain' (fun a b => a.start ≤ b.start)
      (buildTimeline topic D tone platform) ∧
    (∀ s ∈ (buildTimeline topic D tone platform).dropLast, 3 ≤ s.duration) ∧
    (∀ a b, (buildTimeline topic D tone platform).getLast? = some a →
      (buildTimeline topic D tone platform).dropLast.getLast? = some b →
      b.start + b.duration ≤ a.start + a.duration) := by
  have hdur : ∀ s ∈ buildTimeline topic D tone platform, 3 ≤ s.duration :=
    buildTimelineGo_duration_ge_three topic tone platform D beatPercents 0 0
  have hcont : contiguousFrom 0 (buildTimeline topic D tone platform) :=
    buildTimelineGo_contiguous topic tone platform D beatPercents 0 0
  refine ⟨?_, ?_, ?_⟩
  · exact List.Chain'.imp (fun a b hab => le_of_lt hab)
      (contiguousFrom_chain_lt _ 0 hcont hdur)
  · intro s hs
    exact hdur s (List.dropLast_subset _ hs)
  · intro a b ha hb
    exact contiguousFrom_last_end_ge _ 0 hcont hdur a b ha hb

/-- Witness for C6 at D = 45. -/
theorem buildTimeline_start_monotone_and_slack_witness :
    (15 : ℤ) ≤ 45 ∧ (45 : ℤ) ≤ 120 ∧
    List.Chain' (fun a b => a.start ≤ b.start)
      (buildTimeline "AI studio launch" 45 "cinematic" "tiktok") ∧
    (∀ s ∈ (buildTimeline "AI studio launch" 45 "cinematic"
      "tiktok").dropLast, 3 ≤ s.duration) := by
  have h := buildTimeline_start_monotone_and_slack "AI studio launch"
    "cinematic" "tiktok" 45 (by decide) (by decide)
  exact ⟨by decide, by decide, h.1, h.2.1⟩

/-- C10: For every clamped target duration D in [15, 120], the timeline is
exactly 5 segments laid out contiguously from start 0 (each start is the
previous segment's end), every duration — the last included — is at least 3,
and hence the starts are strictly increasing (extents non-overlapping). -/
theorem buildTimeline_five_contiguous_segments (topic tone platform : String)
    (D : ℤ) (h1 : 15 ≤ D) (h2 : D ≤ 120) :
    (buildTimeline topic D tone platform).length = 5 ∧
    contiguousFrom 0 (buildTimeline topic D tone platform) ∧
    (∀ s ∈ buildTimeline topic D tone platform, 3 ≤ s.duration) ∧
    List.Chain' (fun a b => a.start < b.start)
      (buildTimeline topic D tone platform) := by
  have hdur : ∀ s ∈ buildTimeline topic D tone platform, 3 ≤ s.duration :=
    buildTimelineGo_duration_ge_three topic tone platform D beatPercents 0 0
  have hcont : contiguousFrom 0 (buildTimeline topic D tone platform) :=
    buildTimelineGo_contiguous topic tone platform D beatPercents 0 0
  refine ⟨?_, hcont, hdur, ?_⟩
  · rw [buildTimeline, buildTimelineGo_length]
    rfl
  · exact contiguousFrom_chain_lt _ 0 hcont hdur

/-- Witness for C10 at D = 60. -/
theorem buildTimeline_five_contiguous_segments_witness :
    (15 : ℤ) ≤ 60 ∧ (60 : ℤ) ≤ 120 ∧
    (buildTimeline "launch teaser" 60 "upbeat" "instagram").length = 5 ∧
    contiguousFrom 0 (buildTimeline "launch teaser" 60 "upbeat"
      "instagram") := by
  have h := buildTimeline_five_contiguous_segments "launch teaser" "upbeat"
    "instagram" 60 (by decide) (by decide)
  exact ⟨by decide, by decide, h.1, h.2.1⟩

end ReelForge
